import Mathlib

/-!
Shallow embedding of `src/benchmark.py` (ANN_DreaMS_benchmark): the
resource-sampling harness (`monitor_memory`, `measure_peak_memory_and_time`),
the recall evaluator inside `benchmark`, the handling of the `index_kwargs`
configuration map, and the control flow of `__main__`.
-/

namespace ANNBenchmark

/-! ## Recall evaluator (`benchmark`, lines 80-111)

The query loop issues one query per ground-truth row and, for each cutoff
`k`, scores `np.sum(np.isin(nn_indices[:k], gt_indices[i][:k])) / k`.
Memory values and similarities are embedded as rationals; neighbor indices
as integers. -/

/-- Count of `np.isin(a, b)` hits summed: how many elements of `a` occur in
`b`, counted with multiplicity in `a`. -/
def isinCount (a b : List Int) : Nat :=
  (a.filter (fun x => decide (x ∈ b))).length

/-- One recall sample (line 101):
`np.sum(np.isin(nn_indices[:k], gt_indices[i][:k])) / k`. -/
def recallAt (k : Nat) (nn gt : List Int) : ℚ :=
  (isinCount (nn.take k) (gt.take k) : ℚ) / (k : ℚ)

/-- The mean `np.mean` over a list of rationals. -/
def npMean (xs : List ℚ) : ℚ := xs.sum / xs.length

/-- The population variance (`np.std` squared, ddof = 0). -/
def npVar (xs : List ℚ) : ℚ :=
  (xs.map (fun x => (x - npMean xs) ^ 2)).sum / xs.length

/-- Line 86: the recall cutoffs, `k_values = [1, 10]`. -/
def k_values : List Nat := [1, 10]

/-- Body of the search-accuracy loop (lines 90-102). `anns i` is the
engine's answer to query `i` (`get_anns` can raise, hence `Except`); `gtl`
is the remaining tail of `gt_indices`; `i` the current query index;
`issued` the ghost trace of queries issued so far; `r1`, `r10` the
accumulated recall samples. The loop body has no exception handling, so a
failing query ends the loop with the error. -/
def queryLoopGo (anns : Nat → Except String (List Int)) :
    List (List Int) → Nat → List Nat → List ℚ → List ℚ →
    Except String (List ℚ × List ℚ) × List Nat
  | [], _, issued, r1, r10 => (Except.ok (r1, r10), issued)
  | g :: rest, i, issued, r1, r10 =>
    match anns i with
    | Except.error e => (Except.error e, issued ++ [i])
    | Except.ok nn =>
        queryLoopGo anns rest (i + 1) (issued ++ [i])
          (r1 ++ [recallAt 1 nn g]) (r10 ++ [recallAt 10 nn g])

/-- The whole search-accuracy loop over `gt_indices` (lines 90-102):
the recall samples at the two cutoffs (or the first query error), and the
list of query indices actually issued. -/
def queryLoop (anns : Nat → Except String (List Int)) (gt : List (List Int)) :
    Except String (List ℚ × List ℚ) × List Nat :=
  queryLoopGo anns gt 0 [] [] []

/-- The recall samples at cutoff `k` when every query succeeds: entry `i`
is the score of the engine's answer `anns i` against ground-truth row `i`. -/
def recallSamples (anns : Nat → List Int) (gt : List (List Int)) (k : Nat) :
    List ℚ :=
  (List.range gt.length).map (fun i => recallAt k (anns i) (gt.getD i []))

/-- The statistics `benchmark` reports from the query loop (lines 104-111).
Standard deviations are kept as variances (their squares). -/
structure SearchStats where
  recall1_mean : ℚ
  recall1_var : ℚ
  recall10_mean : ℚ
  recall10_var : ℚ
  query_time_mean : ℚ
  query_time_var : ℚ
  deriving DecidableEq

/-- Lines 104-111: fold the per-query samples into means and (squared)
standard deviations. `qtimes i` is the measured wall-clock latency of
query `i`, an input of the run, not of the data. -/
def searchStats (anns : Nat → List Int) (qtimes : Nat → ℚ)
    (gt : List (List Int)) : SearchStats :=
  { recall1_mean := npMean (recallSamples anns gt 1)
    recall1_var := npVar (recallSamples anns gt 1)
    recall10_mean := npMean (recallSamples anns gt 10)
    recall10_var := npVar (recallSamples anns gt 10)
    query_time_mean := npMean ((List.range gt.length).map qtimes)
    query_time_var := npVar ((List.range gt.length).map qtimes) }

/-! ## The `index_kwargs` configuration map (lines 46-48, 62-76, 113)

A Python dict with string keys, embedded as an insertion-ordered
association list without duplicate keys. `benchmark` pops `"k"` (default
10) before the build call and re-inserts it afterwards, mutating the
caller's dict object in place; the result record stores a reference to
that same object. -/

/-- A Python dict with string keys and integer values, as an
insertion-ordered association list. -/
abbrev PyDict := List (String × Int)

/-- Key lookup, `d[key]` / `key in d`. -/
def dictGet (d : PyDict) (key : String) : Option Int := List.lookup key d

/-- Key removal, `del d[key]`. -/
def dictDel (d : PyDict) (key : String) : PyDict :=
  d.filter (fun p => decide (p.1 ≠ key))

/-- Key assignment, `d[key] = v`: overwrites in place when the key exists,
appends otherwise (Python dicts keep insertion order). -/
def dictSet (d : PyDict) (key : String) (v : Int) : PyDict :=
  if (List.lookup key d).isSome then
    d.map (fun p => if p.1 = key then (key, v) else p)
  else d ++ [(key, v)]

/-- What `benchmark` does to `index_kwargs`: the neighbor-list width that
the build call receives, the dict contents at the moment of the build call,
and the dict contents after line 76 re-inserts the width. -/
structure KwargsEffect where
  buildK : Int
  buildKwargs : PyDict
  finalKwargs : PyDict
  deriving DecidableEq

/-- Lines 62-66 and 76: pop `"k"` from `index_kwargs` (default 10), pass it
to `build_ann_index`, re-insert it after the build. -/
def processIndexKwargs (kw : PyDict) : KwargsEffect :=
  match dictGet kw "k" with
  | some v =>
      { buildK := v
        buildKwargs := dictDel kw "k"
        finalKwargs := dictSet (dictDel kw "k") "k" v }
  | none =>
      { buildK := 10
        buildKwargs := kw
        finalKwargs := dictSet kw "k" 10 }

/-- An object heap for dict references: address to dict contents. -/
abbrev Heap := Nat → PyDict

/-- Outcome of `benchmark`'s `index_kwargs` side effects on the heap:
the heap after the call, the reference the result record's
`"index_kwargs"` field holds (line 113), and the width used. -/
structure BenchKwargsResult where
  heap : Heap
  resKwargsRef : Nat
  buildK : Int

/-- The `index_kwargs` handling of `benchmark` (lines 62-76 and 113) on an
explicit heap: `ref` is the caller's dict object, mutated in place; the
result record stores the same reference, not a copy. -/
def benchmarkKwargs (h : Heap) (ref : Nat) : BenchKwargsResult :=
  let eff := processIndexKwargs (h ref)
  { heap := fun r => if r = ref then eff.finalKwargs else h r
    resKwargsRef := ref
    buildK := eff.buildK }

/-! ## The sampler and the measurement harness (lines 13-43)

`measure_peak_memory_and_time` resets the shared cell
`peak_memory_usage = [0]` and the shared `stop_event`, starts the
`monitor_memory` thread, runs the wrapped `func`, sets the stop event,
joins the thread and reads the cell. `monitor_memory` loops sampling the
process RSS while the stop event is unset, and writes its running maximum
into the cell once it observes the event. The two threads are embedded as
an interleaved transition system; `time.sleep` and OS scheduling become
the nondeterminism of the interleaving. -/

/-- Program counter of the sampler thread (`monitor_memory`, lines 13-21):
`check` is the `stop_event.is_set()` test of line 17, `sample` the body of
lines 18-20, `write` the store of line 21. -/
inductive MonPC
  | check
  | sample
  | write
  | done
  deriving DecidableEq

/-- Program counter of the primary thread inside
`measure_peak_memory_and_time` (lines 24-43). `raised` is the state after
the wrapped `func` has raised: the exception propagates to the caller and
lines 37-43 never run (there is no `try`/`finally`). -/
inductive PrimPC
  | start
  | callFunc
  | setStop
  | joinMon
  | readSlot
  | finished
  | raised
  deriving DecidableEq

/-- The shared and per-thread state of one `measure_peak_memory_and_time`
call. `slot` is `peak_memory_usage[0]`; `slotWrites` and `stopObserved`
are ghost fields recording how often the sampler stored into the cell and
whether it has seen the stop event set. -/
structure Sys where
  stop : Bool
  slot : ℚ
  slotWrites : Nat
  stopObserved : Bool
  peak : ℚ
  tick : Nat
  execTime : ℚ
  monStarted : Bool
  mon : MonPC
  prim : PrimPC
  readResult : Option ℚ
  deriving DecidableEq

/-- State on entry of `measure_peak_memory_and_time` (lines 27-28): cell
reset to `[0]`, stop event clear, sampler not yet started. -/
def measureInit : Sys :=
  { stop := false
    slot := 0
    slotWrites := 0
    stopObserved := false
    peak := 0
    tick := 0
    execTime := 0
    monStarted := false
    mon := MonPC.check
    prim := PrimPC.start
    readResult := none }

/-- One interleaving step of the two threads. `mems t` is the process RSS
in MB that the sampler's `t`-th reading returns; `raises` says whether the
wrapped `func` raises; `dur` is the wall-clock duration measured when
`func` returns normally (line 35). -/
inductive Step (mems : Nat → ℚ) (raises : Bool) (dur : ℚ) : Sys → Sys → Prop
  | primSpawn (s : Sys) :
      s.prim = PrimPC.start →
      Step mems raises dur s { s with monStarted := true, prim := PrimPC.callFunc }
  | primFuncRet (s : Sys) :
      s.prim = PrimPC.callFunc → raises = false →
      Step mems raises dur s { s with execTime := dur, prim := PrimPC.setStop }
  | primFuncRaise (s : Sys) :
      s.prim = PrimPC.callFunc → raises = true →
      Step mems raises dur s { s with prim := PrimPC.raised }
  | primSetStop (s : Sys) :
      s.prim = PrimPC.setStop →
      Step mems raises dur s { s with stop := true, prim := PrimPC.joinMon }
  | primJoin (s : Sys) :
      s.prim = PrimPC.joinMon → s.mon = MonPC.done →
      Step mems raises dur s { s with prim := PrimPC.readSlot }
  | primRead (s : Sys) :
      s.prim = PrimPC.readSlot →
      Step mems raises dur s
        { s with readResult := some s.slot, prim := PrimPC.finished }
  | monSeeStop (s : Sys) :
      s.monStarted = true → s.mon = MonPC.check → s.stop = true →
      Step mems raises dur s { s with stopObserved := true, mon := MonPC.write }
  | monLoop (s : Sys) :
      s.monStarted = true → s.mon = MonPC.check → s.stop = false →
      Step mems raises dur s { s with mon := MonPC.sample }
  | monSample (s : Sys) :
      s.monStarted = true → s.mon = MonPC.sample →
      Step mems raises dur s
        { s with peak := max s.peak (mems s.tick), tick := s.tick + 1,
                 mon := MonPC.check }
  | monWrite (s : Sys) :
      s.monStarted = true → s.mon = MonPC.write →
      Step mems raises dur s
        { s with slot := s.peak, slotWrites := s.slotWrites + 1,
                 mon := MonPC.done }

/-- Reachability of a state of one measurement call under some
interleaving. -/
def Reaches (mems : Nat → ℚ) (raises : Bool) (dur : ℚ) (a b : Sys) : Prop :=
  Relation.ReflTransGen (Step mems raises dur) a b

/-! ## Control flow of `__main__` (lines 118-145)

A sequential event trace of the run: argument parsing, `json.loads`, the
instrumented build (the sampler thread is started on line 31, before the
wrapped `build_ann_index` call of line 34 runs), data loading, the query
phase, printing, and the CSV write of line 145. An uncaught exception
propagates and the trace ends without the remaining events. -/

/-- Observable milestones of one run of the script. -/
inductive RunEvent
  | argsParsed
  | jsonParsed
  | samplerSpawned
  | buildCalled
  | engineFailed
  | samplerJoined
  | dataLoaded
  | queryPhase
  | resultPrinted
  | csvWritten
  | errorPropagated
  deriving DecidableEq

/-- The event trace of `__main__` (lines 118-145) around `benchmark`, and
whether the run succeeds: `jsonOk` is `json.loads` of line 132 succeeding,
`buildOk` the wrapped `build_ann_index` call succeeding (it fails on a bad
embeddings path or an unsupported backend name), `dataOk` the `np.load`
calls of lines 80-81 succeeding. A false second component is a run that
ends in an uncaught exception instead of a written CSV row. -/
def mainRun (jsonOk buildOk dataOk : Bool) : List RunEvent × Bool :=
  if jsonOk = false then
    ([RunEvent.argsParsed, RunEvent.errorPropagated], false)
  else if buildOk = false then
    ([RunEvent.argsParsed, RunEvent.jsonParsed, RunEvent.samplerSpawned,
      RunEvent.buildCalled, RunEvent.engineFailed, RunEvent.errorPropagated],
      false)
  else if dataOk = false then
    ([RunEvent.argsParsed, RunEvent.jsonParsed, RunEvent.samplerSpawned,
      RunEvent.buildCalled, RunEvent.samplerJoined, RunEvent.errorPropagated],
      false)
  else
    ([RunEvent.argsParsed, RunEvent.jsonParsed, RunEvent.samplerSpawned,
      RunEvent.buildCalled, RunEvent.samplerJoined, RunEvent.dataLoaded,
      RunEvent.queryPhase, RunEvent.resultPrinted, RunEvent.csvWritten],
      true)

/-! ## Invariant definitions and concrete states -/

/-- Inductive invariant of one `measure_peak_memory_and_time` call whose
wrapped `func` returns normally (`raises = false`). -/
def MeasureInv (dur : ℚ) (s : Sys) : Prop :=
  (s.mon = MonPC.write ∨ s.mon = MonPC.done →
    s.stopObserved = true ∧ s.stop = true) ∧
  (s.mon = MonPC.done → s.slotWrites = 1 ∧ s.slot = s.peak) ∧
  (s.mon ≠ MonPC.done → s.slotWrites = 0 ∧ s.slot = 0) ∧
  (s.prim = PrimPC.readSlot ∨ s.prim = PrimPC.finished → s.mon = MonPC.done) ∧
  (s.prim = PrimPC.finished → s.readResult = some s.slot) ∧
  (s.readResult ≠ none → s.prim = PrimPC.finished) ∧
  (s.tick = 0 → s.peak = 0) ∧
  (s.prim = PrimPC.setStop ∨ s.prim = PrimPC.joinMon ∨
      s.prim = PrimPC.readSlot ∨ s.prim = PrimPC.finished →
    s.execTime = dur) ∧
  s.prim ≠ PrimPC.raised

/-- Inductive invariant of a `measure_peak_memory_and_time` call whose
wrapped `func` raises (`raises = true`): lines 37-38 never run, so the stop
event is never set, the sampler never leaves its loop, the result cell is
never written and never read. -/
def ExnInv (s : Sys) : Prop :=
  s.stop = false ∧ s.stopObserved = false ∧ s.slotWrites = 0 ∧
  s.slot = 0 ∧
  (s.mon = MonPC.check ∨ s.mon = MonPC.sample) ∧
  (s.prim = PrimPC.start ∨ s.prim = PrimPC.callFunc ∨
    s.prim = PrimPC.raised) ∧
  s.readResult = none

/-! ## Concrete executions of the measurement harness

A constant memory trace of 100 MB makes the runs concrete: `mems100 t`
is the RSS the sampler would read at its `t`-th sample. -/

/-- A process whose RSS is 100 MB throughout. -/
def mems100 : Nat → ℚ := fun _ => 100

/-- Final state of a completed normal measurement of an instantaneous
operation in which the sampler took zero samples: the cell still holds its
initialisation value 0, not a memory reading. -/
def runZeroSamples : Sys :=
  { stop := true
    slot := 0
    slotWrites := 1
    stopObserved := true
    peak := 0
    tick := 0
    execTime := 0
    monStarted := true
    mon := MonPC.done
    prim := PrimPC.finished
    readResult := some 0 }

/-- State right after the wrapped `func` has raised: the exception is
propagating, the sampler thread is already running, the stop event is
unset. -/
def runRaised : Sys :=
  { stop := false
    slot := 0
    slotWrites := 0
    stopObserved := false
    peak := 0
    tick := 0
    execTime := 0
    monStarted := true
    mon := MonPC.check
    prim := PrimPC.raised
    readResult := none }

/-! ## Concrete scenario data -/

/-- Ground-truth rows of the three-query scenario: top-1 = 5 for each
query. -/
def c1gt : List (List Int) := [[5], [5], [5]]

/-- Engine answers of the three-query scenario: top-1 = 5, 7, 5. -/
def c1anns : Nat → List Int := fun i => [[5], [7], [5]].getD i []

/-- Latency oracle of the scenario runs (all queries take zero time). -/
def c1times : Nat → ℚ := fun _ => 0

/-- An engine whose second query (index 1) raises and whose other queries
answer `[5]`. -/
def c9anns : Nat → Except String (List Int) :=
  fun i => if i = 1 then Except.error "EngineError" else Except.ok [5]

/-- Three ground-truth rows for the failing-query scenario. -/
def c9gt : List (List Int) := [[5], [5], [5]]

/-! ## Invariants of the measurement transition system -/

lemma measureInv_init (dur : ℚ) : MeasureInv dur measureInit := by
  simp [MeasureInv, measureInit]

lemma measureInv_step {mems : Nat → ℚ} {dur : ℚ} {s t : Sys}
    (h : Step mems false dur s t) (hs : MeasureInv dur s) :
    MeasureInv dur t := by
  obtain ⟨h1, h2, h3, h4, h5, h6, h7, h8, h9⟩ := hs
  cases h with
  | primSpawn hp => exact ⟨h1, h2, h3, by simp_all, by simp_all, by simp_all,
      h7, by simp_all, by simp_all⟩
  | primFuncRet hp _ => exact ⟨h1, h2, h3, by simp_all, by simp_all,
      by simp_all, h7, by simp_all, by simp_all⟩
  | primFuncRaise hp hr => exact absurd hr (by simp)
  | primSetStop hp => exact ⟨by simp_all, h2, h3, by simp_all, by simp_all,
      by simp_all, h7, by simp_all, by simp_all⟩
  | primJoin hp hm => exact ⟨h1, h2, h3, by simp_all, by simp_all,
      by simp_all, h7, by simp_all, by simp_all⟩
  | primRead hp => exact ⟨h1, h2, h3, by simp_all, by simp_all, by simp_all,
      h7, by simp_all, by simp_all⟩
  | monSeeStop hm hc hstop => exact ⟨by simp_all, by simp_all, by simp_all,
      by simp_all, by simp_all, by simp_all, h7, by simp_all, by simp_all⟩
  | monLoop hm hc hstop => exact ⟨by simp_all, by simp_all, by simp_all,
      by simp_all, by simp_all, by simp_all, h7, by simp_all, by simp_all⟩
  | monSample hm hc => exact ⟨by simp_all, by simp_all, by simp_all,
      by simp_all, by simp_all, by simp_all, by simp, by simp_all, by simp_all⟩
  | monWrite hm hc => exact ⟨by simp_all, by simp_all, by simp_all,
      by simp_all, by simp_all, by simp_all, by simp_all, by simp_all,
      by simp_all⟩

lemma measureInv_reaches {mems : Nat → ℚ} {dur : ℚ} {s : Sys}
    (h : Reaches mems false dur measureInit s) : MeasureInv dur s := by
  induction h with
  | refl => exact measureInv_init dur
  | tail _ hstep ih => exact measureInv_step hstep ih

lemma exnInv_init : ExnInv measureInit := by
  simp [ExnInv, measureInit]

lemma exnInv_step {mems : Nat → ℚ} {dur : ℚ} {s t : Sys}
    (h : Step mems true dur s t) (hs : ExnInv s) : ExnInv t := by
  obtain ⟨h1, h2, h3, h4, h5, h6, h7⟩ := hs
  cases h with
  | primSpawn hp => exact ⟨h1, h2, h3, h4, h5, by simp, h7⟩
  | primFuncRet hp hr => exact absurd hr (by simp)
  | primFuncRaise hp _ => exact ⟨h1, h2, h3, h4, h5, by simp, h7⟩
  | primSetStop hp => exact absurd hp (by rcases h6 with h | h | h <;> simp_all)
  | primJoin hp hm => exact absurd hp (by rcases h6 with h | h | h <;> simp_all)
  | primRead hp => exact absurd hp (by rcases h6 with h | h | h <;> simp_all)
  | monSeeStop hm hc hstop => exact absurd hstop (by simp_all)
  | monLoop hm hc hstop => exact ⟨h1, h2, h3, h4, by simp, h6, h7⟩
  | monSample hm hc => exact ⟨h1, h2, h3, h4, by simp, h6, h7⟩
  | monWrite hm hc => exact absurd hc (by rcases h5 with h | h <;> simp_all)

lemma exnInv_reaches {mems : Nat → ℚ} {dur : ℚ} {s : Sys}
    (h : Reaches mems true dur measureInit s) : ExnInv s := by
  induction h with
  | refl => exact exnInv_init
  | tail _ hstep ih => exact exnInv_step hstep ih

lemma reaches_runZeroSamples :
    Reaches mems100 false 0 measureInit runZeroSamples := by
  refine Relation.ReflTransGen.head (Step.primSpawn _ rfl) ?_
  refine Relation.ReflTransGen.head (Step.primFuncRet _ rfl rfl) ?_
  refine Relation.ReflTransGen.head (Step.primSetStop _ rfl) ?_
  refine Relation.ReflTransGen.head (Step.monSeeStop _ rfl rfl rfl) ?_
  refine Relation.ReflTransGen.head (Step.monWrite _ rfl rfl) ?_
  refine Relation.ReflTransGen.head (Step.primJoin _ rfl rfl) ?_
  refine Relation.ReflTransGen.head (Step.primRead _ rfl) ?_
  exact Relation.ReflTransGen.refl

lemma reaches_runRaised (mems : Nat → ℚ) (dur : ℚ) :
    Reaches mems true dur measureInit runRaised := by
  refine Relation.ReflTransGen.head (Step.primSpawn _ rfl) ?_
  refine Relation.ReflTransGen.head (Step.primFuncRaise _ rfl rfl) ?_
  exact Relation.ReflTransGen.refl

/-! ## Claims about the measurement harness -/

/-- C2: what the code actually does when the wrapped operation raises.
The exception does propagate (the primary thread ends in `raised`), but
because lines 37-38 are not protected by `try`/`finally`, the stop event
is never set, the sampler never observes it, never leaves its sampling
loop, never writes the result cell, and is never joined. This contradicts
the claim that the sampler still stops cleanly. -/
theorem measure_exception_sampler_never_stops :
    ∀ (mems : Nat → ℚ) (dur : ℚ) (s : Sys),
      Reaches mems true dur measureInit s →
      s.stop = false ∧ s.stopObserved = false ∧ s.mon ≠ MonPC.done ∧
        s.mon ≠ MonPC.write ∧ s.slotWrites = 0 ∧ s.prim ≠ PrimPC.joinMon ∧
        s.prim ≠ PrimPC.readSlot ∧ s.prim ≠ PrimPC.finished := by
  intro mems dur s h
  obtain ⟨h1, h2, h3, _, h5, h6, _⟩ := exnInv_reaches h
  refine ⟨h1, h2, ?_, ?_, h3, ?_, ?_, ?_⟩ <;>
    rcases h5 with h | h <;> rcases h6 with h' | h' | h' <;> simp_all

/-- Closed instance of `measure_exception_sampler_never_stops` at the
concrete two-step execution that ends with the exception propagating. -/
theorem measure_exception_sampler_never_stops_witness :
    runRaised.stop = false ∧ runRaised.stopObserved = false ∧
      runRaised.mon ≠ MonPC.done ∧ runRaised.mon ≠ MonPC.write ∧
      runRaised.slotWrites = 0 ∧ runRaised.prim ≠ PrimPC.joinMon ∧
      runRaised.prim ≠ PrimPC.readSlot ∧ runRaised.prim ≠ PrimPC.finished :=
  measure_exception_sampler_never_stops mems100 0 runRaised
    (reaches_runRaised mems100 0)

/-- C3: the stop-then-join protocol of `measure_peak_memory_and_time`, in
every execution (normal or raising) and under every interleaving: the
result cell is written at most once, a write happens only after the
sampler observed the stop event, the primary thread reads only after the
join (so only when the sampler is done), a completed call has exactly one
write, and the value read is the sampler's final write. -/
theorem measure_slot_protocol :
    ∀ (mems : Nat → ℚ) (raises : Bool) (dur : ℚ) (s : Sys),
      Reaches mems raises dur measureInit s →
      s.slotWrites ≤ 1 ∧
        (s.slotWrites = 1 → s.stopObserved = true ∧ s.stop = true) ∧
        (s.prim = PrimPC.readSlot ∨ s.prim = PrimPC.finished →
          s.mon = MonPC.done) ∧
        (s.prim = PrimPC.finished →
          s.slotWrites = 1 ∧ s.readResult = some s.slot ∧ s.slot = s.peak) ∧
        (s.readResult ≠ none → s.prim = PrimPC.finished) := by
  intro mems raises dur s h
  cases raises with
  | false =>
      obtain ⟨h1, h2, h3, h4, h5, h6, _, _, _⟩ := measureInv_reaches h
      by_cases hd : s.mon = MonPC.done
      · obtain ⟨hw, hs⟩ := h2 hd
        exact ⟨by omega, fun _ => h1 (Or.inr hd), fun _ => hd,
          fun hf => ⟨hw, h5 hf, hs⟩, h6⟩
      · obtain ⟨hw, _⟩ := h3 hd
        refine ⟨by omega, fun h1' => by omega, fun hp => absurd (h4 hp) hd,
          fun hf => absurd (h4 (Or.inr hf)) hd, h6⟩
  | true =>
      obtain ⟨_, _, h3, _, h5, h6, h7⟩ := exnInv_reaches h
      refine ⟨by omega, fun h' => by omega, ?_, ?_, by simp [h7]⟩ <;>
        rcases h6 with h' | h' | h' <;> simp_all

/-- Closed instance of `measure_slot_protocol` at the concrete completed
zero-sample execution. -/
theorem measure_slot_protocol_witness :
    runZeroSamples.slotWrites ≤ 1 ∧
      (runZeroSamples.slotWrites = 1 →
        runZeroSamples.stopObserved = true ∧ runZeroSamples.stop = true) ∧
      (runZeroSamples.prim = PrimPC.readSlot ∨
          runZeroSamples.prim = PrimPC.finished →
        runZeroSamples.mon = MonPC.done) ∧
      (runZeroSamples.prim = PrimPC.finished →
        runZeroSamples.slotWrites = 1 ∧
          runZeroSamples.readResult = some runZeroSamples.slot ∧
          runZeroSamples.slot = runZeroSamples.peak) ∧
      (runZeroSamples.readResult ≠ none →
        runZeroSamples.prim = PrimPC.finished) :=
  measure_slot_protocol mems100 false 0 runZeroSamples reaches_runZeroSamples

/-- C5 (amended): a completed measurement during which the sampler took
zero samples is not an error — the call returns, the measured time is the
operation's duration — but the reported peak is the cell's initialisation
value 0 MB, not a memory reading. -/
theorem measure_zero_samples_reports_zero :
    ∀ (mems : Nat → ℚ) (dur : ℚ) (s : Sys),
      Reaches mems false dur measureInit s → s.prim = PrimPC.finished →
      s.tick = 0 →
      s.readResult = some 0 ∧ s.execTime = dur := by
  intro mems dur s h hf ht
  obtain ⟨_, h2, _, h4, h5, _, h7, h8, _⟩ := measureInv_reaches h
  obtain ⟨_, hsl⟩ := h2 (h4 (Or.inr hf))
  refine ⟨?_, h8 (Or.inr (Or.inr (Or.inr hf)))⟩
  rw [h5 hf, hsl, h7 ht]

/-- Closed instance of `measure_zero_samples_reports_zero` at the concrete
zero-sample execution. -/
theorem measure_zero_samples_reports_zero_witness :
    runZeroSamples.readResult = some 0 ∧ runZeroSamples.execTime = 0 :=
  measure_zero_samples_reports_zero mems100 0 runZeroSamples
    reaches_runZeroSamples rfl rfl

/-- C5 counterexample: a run in which the wrapped operation finishes
before the sampler's first loop check, on a process whose RSS is 100 MB
throughout. The measurement completes with zero samples taken and reports
a peak of 0 MB — which is not any available memory reading (all readings
are 100 MB) — refuting the claim that the reported peak equals a single
memory reading taken at the start. -/
theorem measure_zero_samples_counterexample :
    Reaches mems100 false 0 measureInit runZeroSamples ∧
      runZeroSamples.tick = 0 ∧
      runZeroSamples.prim = PrimPC.finished ∧
      runZeroSamples.readResult = some 0 ∧
      mems100 0 = 100 ∧ (0 : ℚ) ≠ 100 :=
  ⟨reaches_runZeroSamples, rfl, rfl, rfl, rfl, by norm_num⟩

/-! ## Helper lemmas about the evaluator -/

lemma queryLoopGo_ok (anns : Nat → List Int) :
    ∀ (gtl : List (List Int)) (i : Nat) (issued : List Nat)
      (r1 r10 : List ℚ),
      queryLoopGo (fun j => Except.ok (anns j)) gtl i issued r1 r10 =
        (Except.ok
          (r1 ++ (List.enumFrom i gtl).map
            (fun p => recallAt 1 (anns p.1) p.2),
           r10 ++ (List.enumFrom i gtl).map
            (fun p => recallAt 10 (anns p.1) p.2)),
         issued ++ List.range' i gtl.length) := by
  intro gtl
  induction gtl with
  | nil => intro i issued r1 r10; simp [queryLoopGo]
  | cons g rest ih =>
      intro i issued r1 r10
      simp only [queryLoopGo]
      rw [ih (i + 1) (issued ++ [i]) (r1 ++ [recallAt 1 (anns i) g])
        (r10 ++ [recallAt 10 (anns i) g])]
      simp [List.enumFrom, List.range'_succ, List.append_assoc]

lemma map_enumFrom_zero_recall (k : Nat) (anns : Nat → List Int)
    (gt : List (List Int)) :
    (List.enumFrom 0 gt).map (fun p => recallAt k (anns p.1) p.2) =
      recallSamples anns gt k := by
  apply List.ext_getElem?
  intro i
  rw [List.getElem?_map, List.getElem?_enumFrom]
  unfold recallSamples
  rw [List.getElem?_map]
  by_cases h : i < gt.length
  · rw [List.getElem?_range h]
    have hg : gt[i]? = some gt[i] := List.getElem?_eq_getElem h
    rw [hg]
    simp [List.getD_eq_getElem?_getD, hg]
  · have hg : gt[i]? = none := List.getElem?_eq_none (by omega)
    have hr : (List.range gt.length)[i]? = none := by
      rw [List.getElem?_eq_none]
      simpa using by omega
    rw [hg, hr]
    rfl

lemma queryLoop_ok (anns : Nat → List Int) (gt : List (List Int)) :
    queryLoop (fun j => Except.ok (anns j)) gt =
      (Except.ok (recallSamples anns gt 1, recallSamples anns gt 10),
       List.range gt.length) := by
  unfold queryLoop
  rw [queryLoopGo_ok anns gt 0 [] [] []]
  rw [map_enumFrom_zero_recall, map_enumFrom_zero_recall,
    List.range_eq_range']
  simp

lemma queryLoopGo_error (anns : Nat → Except String (List Int)) (e : String) :
    ∀ (gtl : List (List Int)) (p i : Nat) (issued : List Nat)
      (r1 r10 : List ℚ),
      p < gtl.length → anns (i + p) = Except.error e →
      (∀ j, i ≤ j → j < i + p → ∃ v, anns j = Except.ok v) →
      (queryLoopGo anns gtl i issued r1 r10).1 = Except.error e ∧
      (queryLoopGo anns gtl i issued r1 r10).2 =
        issued ++ List.range' i (p + 1) := by
  intro gtl
  induction gtl with
  | nil => intro p i issued r1 r10 hp; simp at hp
  | cons g rest ih =>
      intro p i issued r1 r10 hp he hok
      cases p with
      | zero =>
          rw [Nat.add_zero] at he
          simp [queryLoopGo, he, List.range'_succ]
      | succ p' =>
          obtain ⟨v, hv⟩ := hok i (le_refl i) (by omega)
          simp only [queryLoopGo, hv]
          have hrec := ih p' (i + 1) (issued ++ [i]) (r1 ++ [recallAt 1 v g])
            (r10 ++ [recallAt 10 v g]) (by simpa using hp)
            (by rw [show i + 1 + p' = i + (p' + 1) by omega]; exact he)
            (fun j hj1 hj2 => hok j (by omega) (by omega))
          refine ⟨hrec.1, ?_⟩
          rw [hrec.2, List.append_assoc]
          congr 1

lemma c1_samples : recallSamples c1anns c1gt 1 = [1, 0, 1] := by
  norm_num [recallSamples, recallAt, isinCount, c1anns, c1gt,
    List.range_succ]

lemma c1_mean : npMean (recallSamples c1anns c1gt 1) = 2 / 3 := by
  rw [c1_samples]; norm_num [npMean]

lemma c1_var : npVar (recallSamples c1anns c1gt 1) = 2 / 9 := by
  rw [c1_samples]; norm_num [npVar, npMean]

/-! ## Helper lemmas about the configuration dict -/

lemma lookup_cons_ne (p : String × Int) (rest : PyDict) (key : String)
    (hp : p.1 ≠ key) :
    List.lookup key (p :: rest) = List.lookup key rest := by
  have hb : (key == p.1) = false := beq_eq_false_iff_ne.mpr (Ne.symm hp)
  obtain ⟨k, v⟩ := p
  simp only [List.lookup]
  simp only [hb]

lemma lookup_dictDel_self (d : PyDict) (key : String) :
    List.lookup key (dictDel d key) = none := by
  induction d with
  | nil => rfl
  | cons p rest ih =>
      by_cases hp : p.1 = key
      · simpa [dictDel, hp] using ih
      · rw [show dictDel (p :: rest) key = p :: dictDel rest key by
            simp [dictDel, hp],
          lookup_cons_ne p _ key hp]
        exact ih

lemma lookup_append_single (d : PyDict) (key : String) (v : Int)
    (h : List.lookup key d = none) :
    List.lookup key (d ++ [(key, v)]) = some v := by
  induction d with
  | nil => simp [List.lookup]
  | cons p rest ih =>
      by_cases hp : p.1 = key
      · rw [show List.lookup key (p :: rest) = some p.2 by
            obtain ⟨k, w⟩ := p
            simp_all [List.lookup]] at h
        exact absurd h (by simp)
      · rw [List.cons_append, lookup_cons_ne p _ key hp]
        rw [lookup_cons_ne p rest key hp] at h
        exact ih h

lemma dictGet_dictSet_absent (d : PyDict) (key : String) (v : Int)
    (h : List.lookup key d = none) :
    dictGet (dictSet d key v) key = some v := by
  unfold dictGet dictSet
  rw [h]
  simpa using lookup_append_single d key v h

lemma processIndexKwargs_final_lookup (kw : PyDict) :
    dictGet (processIndexKwargs kw).finalKwargs "k" =
      some (processIndexKwargs kw).buildK := by
  rcases hk : dictGet kw "k" with _ | v <;> simp only [processIndexKwargs, hk]
  · exact dictGet_dictSet_absent kw "k" 10 hk
  · exact dictGet_dictSet_absent _ "k" v (lookup_dictDel_self kw "k")

lemma processIndexKwargs_build_lookup (kw : PyDict) :
    dictGet (processIndexKwargs kw).buildKwargs "k" = none := by
  rcases hk : dictGet kw "k" with _ | v
  · simp only [processIndexKwargs, hk]
  · simp only [processIndexKwargs, hk]
    exact lookup_dictDel_self kw "k"

/-! ## Claims about the evaluator -/

/-- C1: recall@k is the number of the first `k` returned neighbor indices
that are members of the first `k` ground-truth indices, divided by `k`;
membership only, so any permutation of the returned top-k scores the same.
The query loop computes exactly these samples, and on the three-query
scenario (ground truth 5, 5, 5; answers 5, 7, 5) the samples at cutoff 1
are 1, 0, 1, the reported mean is 2/3 ≈ 0.667 and the reported population
standard deviation is within 0.001 of 0.471. -/
theorem recall_definition_and_scenario :
    (∀ (anns : Nat → List Int) (gt : List (List Int)),
        queryLoop (fun j => Except.ok (anns j)) gt =
          (Except.ok (recallSamples anns gt 1, recallSamples anns gt 10),
           List.range gt.length)) ∧
    (∀ (k i : Nat) (anns : Nat → List Int) (gt : List (List Int)),
        i < gt.length →
        (recallSamples anns gt k).getD i 0 =
          (isinCount ((anns i).take k) ((gt.getD i []).take k) : ℚ) /
            (k : ℚ)) ∧
    (∀ (k : Nat) (nn nn' gt : List Int),
        List.Perm (nn.take k) (nn'.take k) →
        recallAt k nn gt = recallAt k nn' gt) ∧
    recallSamples c1anns c1gt 1 = [1, 0, 1] ∧
    (searchStats c1anns c1times c1gt).recall1_mean = 2 / 3 ∧
    |(searchStats c1anns c1times c1gt).recall1_mean - 667 / 1000| <
      1 / 1000 ∧
    (searchStats c1anns c1times c1gt).recall1_var = 2 / 9 ∧
    |Real.sqrt ((searchStats c1anns c1times c1gt).recall1_var : ℝ) -
        471 / 1000| < 1 / 1000 := by
  have hmean : (searchStats c1anns c1times c1gt).recall1_mean = 2 / 3 := by
    simp only [searchStats]
    exact c1_mean
  have hvar : (searchStats c1anns c1times c1gt).recall1_var = 2 / 9 := by
    simp only [searchStats]
    exact c1_var
  refine ⟨queryLoop_ok, ?_, ?_, c1_samples, hmean, ?_, hvar, ?_⟩
  · intro k i anns gt h
    unfold recallSamples recallAt
    rw [List.getD_eq_getElem?_getD, List.getElem?_map, List.getElem?_range h]
    rfl
  · intro k nn nn' gt h
    unfold recallAt isinCount
    rw [(h.filter _).length_eq]
  · rw [hmean, abs_sub_lt_iff]
    constructor <;> norm_num
  · rw [hvar]
    have h0 : ((2 / 9 : ℚ) : ℝ) = 2 / 9 := by norm_num
    rw [h0, abs_sub_lt_iff]
    constructor
    · have : Real.sqrt (2 / 9) < 472 / 1000 := by
        rw [show (472 : ℝ) / 1000 = Real.sqrt ((472 / 1000) ^ 2) by
          rw [Real.sqrt_sq (by norm_num)]]
        exact Real.sqrt_lt_sqrt (by norm_num) (by norm_num)
      linarith
    · have : (470 : ℝ) / 1000 < Real.sqrt (2 / 9) := by
        rw [show (470 : ℝ) / 1000 = Real.sqrt ((470 / 1000) ^ 2) by
          rw [Real.sqrt_sq (by norm_num)]]
        exact Real.sqrt_lt_sqrt (by norm_num) (by norm_num)
      linarith

/-- C4: for the cutoffs the code evaluates (1 and 10), the denominator of
recall@k is the full cutoff `k` and is positive, also when fewer than `k`
neighbors are returned (the hit count is then taken over all returned
indices), and for every possible returned index sequence the score lies in
[0, 1]. -/
theorem recall_bounded_no_div_by_zero :
    ∀ (k : Nat) (nn gt : List Int), k ∈ k_values →
      0 < k ∧
      (nn.length ≤ k →
        recallAt k nn gt = (isinCount nn (gt.take k) : ℚ) / (k : ℚ)) ∧
      0 ≤ recallAt k nn gt ∧ recallAt k nn gt ≤ 1 := by
  intro k nn gt hk
  have hk0 : 0 < k := by
    rcases (by simpa [k_values] using hk : k = 1 ∨ k = 10) with h | h <;> omega
  refine ⟨hk0, ?_, ?_, ?_⟩
  · intro hlen
    unfold recallAt
    rw [List.take_of_length_le hlen]
  · unfold recallAt
    positivity
  · unfold recallAt
    rw [div_le_one (by exact_mod_cast hk0)]
    have h1 : isinCount (nn.take k) (gt.take k) ≤ k := by
      unfold isinCount
      exact le_trans (List.length_filter_le _ _) (List.length_take_le k nn)
    exact_mod_cast h1

/-- Closed instance of `recall_bounded_no_div_by_zero` at cutoff 10 with an
under-returning answer of two indices. -/
theorem recall_bounded_witness :
    0 < 10 ∧
      (([5, 7] : List Int).length ≤ 10 →
        recallAt 10 [5, 7] [5] =
          (isinCount [5, 7] (([5] : List Int).take 10) : ℚ) /
            ((10 : Nat) : ℚ)) ∧
      0 ≤ recallAt 10 [5, 7] [5] ∧ recallAt 10 [5, 7] [5] ≤ 1 :=
  recall_bounded_no_div_by_zero 10 [5, 7] [5] (by decide)

/-- C8: the recall statistics that the evaluator reports are a function of
the engine's answers and the ground truth only; rerunning the evaluator
with different per-query latencies (the only run-dependent input) yields
identical recall means and variances. -/
theorem recall_stats_latency_independent :
    ∀ (anns : Nat → List Int) (gt : List (List Int)) (t1 t2 : Nat → ℚ),
      (searchStats anns t1 gt).recall1_mean =
          (searchStats anns t2 gt).recall1_mean ∧
        (searchStats anns t1 gt).recall1_var =
          (searchStats anns t2 gt).recall1_var ∧
        (searchStats anns t1 gt).recall10_mean =
          (searchStats anns t2 gt).recall10_mean ∧
        (searchStats anns t1 gt).recall10_var =
          (searchStats anns t2 gt).recall10_var :=
  fun _ _ _ _ => ⟨rfl, rfl, rfl, rfl⟩

/-- C9 (amended): the query loop is fail-fast. If query `i` is the first
to raise, the error propagates out of the whole evaluation, queries
`0..i` are exactly the ones issued, and no later query is evaluated. -/
theorem query_failure_aborts_evaluation :
    ∀ (anns : Nat → Except String (List Int)) (gt : List (List Int))
      (i : Nat) (e : String),
      i < gt.length → anns i = Except.error e →
      (∀ j, j < i → ∃ v, anns j = Except.ok v) →
      (queryLoop anns gt).1 = Except.error e ∧
      (queryLoop anns gt).2 = List.range (i + 1) := by
  intro anns gt i e hi he hok
  have h := queryLoopGo_error anns e gt i 0 [] [] [] hi (by simpa using he)
    (fun j hj1 hj2 => hok j (by omega))
  simpa [queryLoop, List.range_eq_range'] using h

/-- Closed instance of `query_failure_aborts_evaluation` at the concrete
engine whose second query raises. -/
theorem query_failure_aborts_evaluation_witness :
    (queryLoop c9anns c9gt).1 = Except.error "EngineError" ∧
      (queryLoop c9anns c9gt).2 = List.range 2 :=
  query_failure_aborts_evaluation c9anns c9gt 1 "EngineError"
    (by norm_num [c9gt]) rfl
    (fun j hj => ⟨[5], by rw [show j = 0 by omega]; rfl⟩)

/-- C9 counterexample: with three queries of which the second raises, the
evaluation ends in the error — the loop issues queries 0 and 1 only and
query 2 is never evaluated, refuting the claim that a failing query does
not abort the evaluation of the remaining queries. -/
theorem query_failure_counterexample :
    (queryLoop c9anns c9gt).1 = Except.error "EngineError" ∧
      (queryLoop c9anns c9gt).2 = [0, 1] ∧
      2 ∉ (queryLoop c9anns c9gt).2 :=
  ⟨rfl, by decide, by decide⟩

/-! ## Claims about the configuration map -/

/-- C6: if the options map has no `"k"` entry the index is built with the
default width 10, a supplied `"k"` is used as given, and the configuration
reported in the result record always contains the width actually used. -/
theorem index_width_default_and_reported :
    ∀ kw : PyDict,
      (dictGet kw "k" = none → (processIndexKwargs kw).buildK = 10) ∧
      (∀ v : Int, dictGet kw "k" = some v →
        (processIndexKwargs kw).buildK = v) ∧
      dictGet (processIndexKwargs kw).finalKwargs "k" =
        some (processIndexKwargs kw).buildK := by
  intro kw
  refine ⟨fun h => ?_, fun v hv => ?_, processIndexKwargs_final_lookup kw⟩
  · simp only [processIndexKwargs, h]
  · simp only [processIndexKwargs, hv]

/-- C10: `benchmark` mutates the caller's options dict in place — `"k"` is
removed before the build call and re-inserted afterwards — so after the
call the caller's own dict always maps `"k"` to the width used (10 when it
was absent), the rest of the heap is untouched, and the result record's
`"index_kwargs"` field is the same reference as the caller's dict, not a
copy. -/
theorem benchmark_kwargs_inplace_mutation :
    ∀ (h : Heap) (ref : Nat),
      (benchmarkKwargs h ref).resKwargsRef = ref ∧
      (benchmarkKwargs h ref).heap ref =
        (processIndexKwargs (h ref)).finalKwargs ∧
      dictGet (processIndexKwargs (h ref)).buildKwargs "k" = none ∧
      dictGet ((benchmarkKwargs h ref).heap ref) "k" =
        some (benchmarkKwargs h ref).buildK ∧
      (dictGet (h ref) "k" = none → (benchmarkKwargs h ref).buildK = 10) ∧
      (∀ r : Nat, r ≠ ref → (benchmarkKwargs h ref).heap r = h r) := by
  intro h ref
  refine ⟨rfl, by simp [benchmarkKwargs], processIndexKwargs_build_lookup _,
    ?_, fun hnone => ?_, fun r hr => ?_⟩
  · simp only [benchmarkKwargs, if_pos rfl]
    exact processIndexKwargs_final_lookup (h ref)
  · simp only [benchmarkKwargs, processIndexKwargs, hnone]
  · simp only [benchmarkKwargs, if_neg hr]

/-! ## Claims about the run's control flow -/

/-- C7 (amended): every fatal error — malformed JSON options, a failing
build (bad dataset path or unsupported backend), failing data loads —
makes the run end in a propagating error with no CSV row written, and a
CSV row implies everything succeeded; malformed JSON aborts before any
work. But a failing build raises its engine error only after the sampler
thread has been spawned (the sampling phase has already started), and the
sampler is then never joined. -/
theorem fatal_error_no_csv :
    ∀ jsonOk buildOk dataOk : Bool,
      ((jsonOk = false ∨ buildOk = false ∨ dataOk = false) →
        RunEvent.csvWritten ∉ (mainRun jsonOk buildOk dataOk).1 ∧
        (mainRun jsonOk buildOk dataOk).2 = false) ∧
      (jsonOk = false →
        RunEvent.samplerSpawned ∉ (mainRun jsonOk buildOk dataOk).1 ∧
        RunEvent.buildCalled ∉ (mainRun jsonOk buildOk dataOk).1) ∧
      (jsonOk = true → buildOk = false →
        RunEvent.samplerSpawned ∈ (mainRun jsonOk buildOk dataOk).1 ∧
        RunEvent.engineFailed ∈ (mainRun jsonOk buildOk dataOk).1 ∧
        RunEvent.samplerJoined ∉ (mainRun jsonOk buildOk dataOk).1) ∧
      ((mainRun jsonOk buildOk dataOk).2 = true →
        jsonOk = true ∧ buildOk = true ∧ dataOk = true) := by
  intro j b d
  cases j <;> cases b <;> cases d <;> decide

/-- C7 counterexample: in the run with an unsupported backend (valid JSON,
failing build, loadable data) the sampler-spawn event strictly precedes
the engine failure — the sampling phase has started when the run aborts —
no CSV is written and the run fails; and in the thread-level model the
state where the build's exception is propagating has the sampler thread
already started. This refutes the claim that the abort happens before any
sampling executes. -/
theorem unsupported_backend_counterexample :
    RunEvent.samplerSpawned ∈ (mainRun true false true).1 ∧
      (mainRun true false true).1.indexOf RunEvent.samplerSpawned <
        (mainRun true false true).1.indexOf RunEvent.engineFailed ∧
      RunEvent.csvWritten ∉ (mainRun true false true).1 ∧
      (mainRun true false true).2 = false ∧
      Reaches mems100 true 0 measureInit runRaised ∧
      runRaised.prim = PrimPC.raised ∧ runRaised.monStarted = true :=
  ⟨by decide, by decide, by decide, rfl, reaches_runRaised mems100 0,
    rfl, rfl⟩

end ANNBenchmark
